import Mathlib

/-!
Verification development for the Bayesian-block light-curve pipeline
(`T2BayesianBlocks.process` and its helpers, plus the downstream
`T2DustEchoEval.process` decision table).

Numeric conventions: Python floats are embedded as rationals.  The square
root used by the source (`numpy`'s, inside `uncertainties`' propagated
standard deviation and `sklearn`'s root-mean-square error) is abstracted as
an explicit function parameter `rt : ℚ → ℚ`; counterexample inputs pass a
concrete table that is exact on every value the input reaches.  A float that
the source allows to be NaN is embedded as `Option ℚ` with `none` for NaN;
comparisons against NaN are false, which the embedding makes explicit at
each use site.
-/

/-- Block classification levels (the `level` column of the block table;
`unset` is the initial `None`). -/
inductive Level where
  | unset
  | baseline
  | excess
  | outlier
deriving DecidableEq, Repr

/-- The default of the configurable rejection threshold `rej_sigma`. -/
def rejSigmaDefault : ℚ := 3

/-- One row of the per-band block table as far as the level-classification
loop reads it: the block mean `mag`, its propagated error `mag.err`
(`none` = NaN), the member measurements (value, error) the block was built
from, and the current `level`. -/
structure Blk where
  mag : ℚ
  err : Option ℚ
  members : List (ℚ × Option ℚ)
  level : Level
deriving DecidableEq, Repr

/-- Sum of squares of a list of rationals. -/
def sumSq (xs : List ℚ) : ℚ := (xs.map (fun x => x * x)).sum

/-- Arithmetic mean (`np.mean` of the nominal values); junk 0 on []. -/
def listMean (xs : List ℚ) : ℚ := xs.sum / xs.length

/-- `np.mean(uarray(values, errors)).std_dev` = `sqrt (Σ errᵢ²) / n`,
propagating NaN (`none`) if any error is NaN. -/
def propErr (rt : ℚ → ℚ) (ms : List (ℚ × Option ℚ)) : Option ℚ :=
  if (ms.map Prod.snd).all Option.isSome then
    some (rt (sumSq (ms.filterMap Prod.snd)) / ms.length)
  else none

/-- Build a block row from its member measurements, as the segmentation
loop does for `data_type == "wise"`: `mag` is the nominal value of the
member mean, `mag.err` the propagated standard deviation. -/
def mkBlk (rt : ℚ → ℚ) (ms : List (ℚ × Option ℚ)) : Blk :=
  { mag := listMean (ms.map Prod.fst)
    err := propErr rt ms
    members := ms
    level := Level.unset }

/-- The per-row transition of `baye_block_levels`: a NaN block error takes
the z-score branch with a strict `<`; a defined error takes the two-sided
interval test plus the error-shifted bound, and only applies to rows not
already labelled baseline. -/
def bayeBlockLevelStep (rej b s mag : ℚ) (err : Option ℚ) (lvl : Level) : Level :=
  match err with
  | none => if |(b - mag) / s| < rej then Level.baseline else Level.excess
  | some e =>
    if lvl ≠ Level.baseline then
      if (b + rej * s ≥ mag ∧ mag ≥ b - rej * s) ∧ b + rej * s ≥ mag - e then
        Level.baseline
      else Level.excess
    else lvl

theorem listMean_nil : listMean [] = 0 := by simp [listMean]

/-- C4 as stated predicts `baseline` when the error is NaN and
`|value - baseline| = rej_sigma * baseline_sigma` exactly; the code's strict
`<` classifies `excess` there. -/
theorem c4_counterexample :
    bayeBlockLevelStep 3 0 1 3 none Level.unset = Level.excess ∧
      |(3 : ℚ) - 0| ≤ 3 * 1 := by
  constructor
  · simp [bayeBlockLevelStep]
  · norm_num

/-- C4 amended: for a block not already locked as baseline and a positive
baseline scatter, the step classifies `baseline` iff: with a defined error,
`|value - baseline| ≤ rej·σ` and `value - error ≤ baseline + rej·σ`
(inclusive bounds); with a NaN error, `|value - baseline| < rej·σ`
(strict).  The default of `rej_sigma` is 3. -/
theorem c4_level_rule (rej b s mag : ℚ) (err : Option ℚ) (lvl : Level)
    (hlvl : lvl ≠ Level.baseline) (hs : 0 < s) :
    ((err = none →
        (bayeBlockLevelStep rej b s mag err lvl = Level.baseline ↔
          |mag - b| < rej * s)) ∧
      (∀ e, err = some e →
        (bayeBlockLevelStep rej b s mag err lvl = Level.baseline ↔
          |mag - b| ≤ rej * s ∧ mag - e ≤ b + rej * s))) ∧
      rejSigmaDefault = 3 := by
  refine ⟨⟨?_, ?_⟩, rfl⟩
  · rintro rfl
    have habs : |(b - mag) / s| = |mag - b| / s := by
      rw [abs_div, abs_of_pos hs, abs_sub_comm]
    constructor
    · intro h
      by_contra hc
      push_neg at hc
      have : ¬ |(b - mag) / s| < rej := by
        rw [habs, not_lt]
        exact (le_div_iff₀ hs).mpr (by linarith)
      simp [bayeBlockLevelStep, this] at h
    · intro h
      have : |(b - mag) / s| < rej := by
        rw [habs, div_lt_iff₀ hs]
        linarith
      simp [bayeBlockLevelStep, this]
  · rintro e rfl
    simp only [bayeBlockLevelStep]
    rw [if_pos hlvl]
    split_ifs with hcond
    · exact iff_of_true rfl
        ⟨abs_le.mpr ⟨by linarith [hcond.1.2], by linarith [hcond.1.1]⟩,
          by linarith [hcond.2]⟩
    · refine iff_of_false (by simp) ?_
      rintro ⟨h1, h2⟩
      rw [abs_le] at h1
      exact hcond ⟨⟨by linarith [h1.2], by linarith [h1.1]⟩, by linarith⟩

/-- Witness for `c4_level_rule` at `rej = 3`, `b = 0`, `σ = 1`,
`mag = 1`, `err = some 1`. -/
theorem c4_level_rule_witness :
    ((none = (none : Option ℚ) →
        (bayeBlockLevelStep 3 0 1 1 none Level.unset = Level.baseline ↔
          |(1 : ℚ) - 0| < 3 * 1)) ∧
      (∀ e, (none : Option ℚ) = some e →
        (bayeBlockLevelStep 3 0 1 1 none Level.unset = Level.baseline ↔
          |(1 : ℚ) - 0| ≤ 3 * 1 ∧ (1 : ℚ) - e ≤ 0 + 3 * 1))) ∧
      rejSigmaDefault = 3 :=
  c4_level_rule 3 0 1 1 none Level.unset (by simp) (by norm_num)

/-- A raw photometry row of the per-band dataframe `df`: Julian date,
value and error (band-level plumbing never branches on a NaN error, so the
row keeps plain rationals). -/
structure Meas where
  jd : ℚ
  mag : ℚ
  magErr : ℚ
deriving DecidableEq, Repr

/-- The consecutive edge pairs `(edges[i-1], edges[i])` the segmentation
loop `for i in range(1, len(edges))` runs over. -/
def edgePairs (edges : List ℚ) : List (ℚ × ℚ) := edges.zip edges.tail

/-- Member measurements of one block:
`df.loc[df["jd"].between(edges[i-1], edges[i], inclusive="both")]` —
closed at both ends. -/
def blockMembers (df : List Meas) (e1 e2 : ℚ) : List Meas :=
  df.filter (fun m => decide (e1 ≤ m.jd) && decide (m.jd ≤ e2))

/-- The per-block member lists produced by one pass of the segmentation
loop. -/
def blocksOf (edges : List ℚ) (df : List Meas) : List (List Meas) :=
  (edgePairs edges).map (fun p => blockMembers df p.1 p.2)

theorem blocksOf_length (edges : List ℚ) (df : List Meas) :
    (blocksOf edges df).length = edges.length - 1 := by
  simp [blocksOf, edgePairs]

theorem cover_pair (es : List ℚ) : ∀ (e0 t : ℚ), e0 ≤ t →
    (∃ e ∈ es, t ≤ e) → ∃ p ∈ edgePairs (e0 :: es), p.1 ≤ t ∧ t ≤ p.2 := by
  induction es with
  | nil => rintro e0 t _ ⟨e, he, _⟩; exact absurd he (List.not_mem_nil e)
  | cons e1 rest ih =>
    rintro e0 t h0 ⟨e, he, hte⟩
    by_cases ht : t ≤ e1
    · exact ⟨(e0, e1), by simp [edgePairs], h0, ht⟩
    · push_neg at ht
      rcases List.mem_cons.mp he with he' | he'
      · exact absurd hte (by subst he'; exact not_le.mpr ht)
      · obtain ⟨p, hp, hple⟩ := ih e1 t ht.le ⟨e, he', hte⟩
        exact ⟨p, by simpa [edgePairs] using Or.inr hp, hple⟩

theorem edgePairs_length (edges : List ℚ) :
    (edgePairs edges).length = edges.length - 1 := by
  simp [edgePairs]

theorem edgePairs_getD (edges : List ℚ) (i : ℕ) (h : i + 1 < edges.length) :
    (edgePairs edges).getD i (0, 0) = (edges.getD i 0, edges.getD (i + 1) 0) := by
  have h1 : i < edges.length := by omega
  have hz : i < (edgePairs edges).length := by rw [edgePairs_length]; omega
  rw [List.getD_eq_getElem?_getD, List.getElem?_eq_getElem hz,
    List.getD_eq_getElem?_getD, List.getElem?_eq_getElem h1,
    List.getD_eq_getElem?_getD, List.getElem?_eq_getElem h]
  simp [edgePairs, List.getElem_zip, List.getElem_tail]

theorem blocksOf_getD (edges : List ℚ) (df : List Meas) (i : ℕ)
    (h : i + 1 < edges.length) :
    (blocksOf edges df).getD i [] =
      blockMembers df (edges.getD i 0) (edges.getD (i + 1) 0) := by
  have hz : i < (blocksOf edges df).length := by rw [blocksOf_length]; omega
  have hzz : i < (edgePairs edges).length := by rw [edgePairs_length]; omega
  have hpair := edgePairs_getD edges i h
  rw [List.getD_eq_getElem?_getD, List.getElem?_eq_getElem hzz] at hpair
  rw [List.getD_eq_getElem?_getD, List.getElem?_eq_getElem hz]
  simp only [Option.getD_some] at hpair ⊢
  show (blocksOf edges df)[i] = _
  simp only [blocksOf]
  rw [List.getElem_map, hpair]

theorem chain_getD_lt (edges : List ℚ) (hch : List.Chain' (· < ·) edges)
    (i : ℕ) (h : i + 1 < edges.length) :
    edges.getD i 0 < edges.getD (i + 1) 0 := by
  have h1 : i < edges.length := by omega
  have hc := List.chain'_iff_get.mp hch i (by omega)
  rw [List.getD_eq_getElem?_getD, List.getElem?_eq_getElem h1,
    List.getD_eq_getElem?_getD, List.getElem?_eq_getElem h]
  simpa using hc

/-- C1 counterexample: edges `[0, 1, 2]` satisfy the §6 segmentation
contract, yet the measurement at time 1 — an interior edge — is a member of
block 0 (`[0, 1]`) AND of block 1 (`[1, 2]`): the closed/closed `between`
assigns it to two adjacent blocks, so it does not belong to exactly one. -/
theorem c1_counterexample :
    Meas.mk 1 5 1 ∈
        (blocksOf [0, 1, 2] [Meas.mk 0 4 1, Meas.mk 1 5 1, Meas.mk 2 6 1]).getD 0 [] ∧
      Meas.mk 1 5 1 ∈
        (blocksOf [0, 1, 2] [Meas.mk 0 4 1, Meas.mk 1 5 1, Meas.mk 2 6 1]).getD 1 [] := by
  decide

/-- C1 amended: with strictly increasing edges bounding all measurement
times, (a) every measurement belongs to at least one block, (b) adjacent
blocks are contiguous (they share their partition edge), (c) a block whose
edge interval holds a measurement has at least one member, and (d) a
measurement whose time equals an interior edge belongs to BOTH adjacent
blocks, because the closed/closed `between` double-counts it. -/
theorem c1_blocks_partition (edges : List ℚ) (df : List Meas)
    (hch : List.Chain' (· < ·) edges)
    (h2 : 2 ≤ edges.length)
    (hlo : ∀ m ∈ df, edges.getD 0 0 ≤ m.jd)
    (hhi : ∀ m ∈ df, m.jd ≤ edges.getD (edges.length - 1) 0) :
    (∀ m ∈ df, ∃ blk ∈ blocksOf edges df, m ∈ blk) ∧
      (∀ i, i + 1 < (edgePairs edges).length →
        ((edgePairs edges).getD i (0, 0)).2 = ((edgePairs edges).getD (i + 1) (0, 0)).1) ∧
      (∀ p ∈ edgePairs edges, (∃ m ∈ df, p.1 ≤ m.jd ∧ m.jd ≤ p.2) →
        blockMembers df p.1 p.2 ≠ []) ∧
      (∀ m ∈ df, ∀ j, 0 < j → j + 1 < edges.length → m.jd = edges.getD j 0 →
        m ∈ (blocksOf edges df).getD (j - 1) [] ∧
          m ∈ (blocksOf edges df).getD j []) := by
  refine ⟨?_, ?_, ?_, ?_⟩
  · intro m hm
    obtain ⟨e0, es, rfl⟩ : ∃ e0 es, edges = e0 :: es := by
      cases edges with
      | nil => simp at h2
      | cons a l => exact ⟨a, l, rfl⟩
    have hlo' : e0 ≤ m.jd := by simpa using hlo m hm
    obtain ⟨k, hk⟩ : ∃ k, es.length = k + 1 := by
      cases es with
      | nil => simp at h2
      | cons b l => exact ⟨l.length, by simp⟩
    have hkk : k < es.length := by omega
    have hhi' : m.jd ≤ es.getD k 0 := by
      have h5 := hhi m hm
      simp only [List.length_cons, Nat.add_sub_cancel] at h5
      rw [hk, List.getD_cons_succ] at h5
      exact h5
    have hmem : es.getD k 0 ∈ es := by
      rw [List.getD_eq_getElem?_getD, List.getElem?_eq_getElem hkk, Option.getD_some]
      exact List.getElem_mem hkk
    obtain ⟨p, hp, hp1, hp2⟩ := cover_pair es e0 m.jd hlo' ⟨es.getD k 0, hmem, hhi'⟩
    refine ⟨blockMembers df p.1 p.2, List.mem_map_of_mem _ hp, ?_⟩
    exact List.mem_filter.mpr ⟨hm, by simp [hp1, hp2]⟩
  · intro i hi
    rw [edgePairs_length] at hi
    rw [edgePairs_getD edges i (by omega), edgePairs_getD edges (i + 1) (by omega)]
  · rintro p hp ⟨m, hm, hm1, hm2⟩ hnil
    have : m ∈ blockMembers df p.1 p.2 := List.mem_filter.mpr ⟨hm, by simp [hm1, hm2]⟩
    rw [hnil] at this
    exact List.not_mem_nil m this
  · intro m hm j hj hjlen hjd
    have hj1 : j - 1 + 1 = j := by omega
    have hlt1 : edges.getD (j - 1) 0 < edges.getD j 0 := by
      have := chain_getD_lt edges hch (j - 1) (by omega)
      rwa [hj1] at this
    have hlt2 : edges.getD j 0 < edges.getD (j + 1) 0 :=
      chain_getD_lt edges hch j hjlen
    constructor
    · rw [blocksOf_getD edges df (j - 1) (by omega), hj1]
      refine List.mem_filter.mpr ⟨hm, ?_⟩
      simp only [List.getD_eq_getElem?_getD] at hjd hlt1 ⊢
      simp [hjd, le_of_lt hlt1]
    · rw [blocksOf_getD edges df j hjlen]
      refine List.mem_filter.mpr ⟨hm, ?_⟩
      simp only [List.getD_eq_getElem?_getD] at hjd hlt2 ⊢
      simp [hjd, le_of_lt hlt2]

/-- Witness for `c1_blocks_partition` at edges `[0, 1, 2]` and a
three-measurement band. -/
theorem c1_blocks_partition_witness :
    (∀ m ∈ [Meas.mk 0 4 1, Meas.mk 1 5 1, Meas.mk 2 6 1],
        ∃ blk ∈ blocksOf [0, 1, 2] [Meas.mk 0 4 1, Meas.mk 1 5 1, Meas.mk 2 6 1],
          m ∈ blk) ∧
      (∀ i, i + 1 < (edgePairs [0, 1, 2]).length →
        ((edgePairs [0, 1, 2]).getD i (0, 0)).2 =
          ((edgePairs [0, 1, 2]).getD (i + 1) (0, 0)).1) ∧
      (∀ p ∈ edgePairs [0, 1, 2],
        (∃ m ∈ [Meas.mk 0 4 1, Meas.mk 1 5 1, Meas.mk 2 6 1],
            p.1 ≤ m.jd ∧ m.jd ≤ p.2) →
        blockMembers [Meas.mk 0 4 1, Meas.mk 1 5 1, Meas.mk 2 6 1] p.1 p.2 ≠ []) ∧
      (∀ m ∈ [Meas.mk 0 4 1, Meas.mk 1 5 1, Meas.mk 2 6 1],
        ∀ j, 0 < j → j + 1 < ([0, 1, 2] : List ℚ).length →
          m.jd = ([0, 1, 2] : List ℚ).getD j 0 →
          m ∈ (blocksOf [0, 1, 2] [Meas.mk 0 4 1, Meas.mk 1 5 1, Meas.mk 2 6 1]).getD
              (j - 1) [] ∧
            m ∈ (blocksOf [0, 1, 2]
                [Meas.mk 0 4 1, Meas.mk 1 5 1, Meas.mk 2 6 1]).getD j []) :=
  c1_blocks_partition [0, 1, 2] [Meas.mk 0 4 1, Meas.mk 1 5 1, Meas.mk 2 6 1]
    (by exact List.Chain.cons (by norm_num) (List.Chain.cons (by norm_num) List.Chain.nil))
    (by simp) (by norm_num [List.forall_mem_cons]) (by norm_num [List.forall_mem_cons])

/-- Per-band slice of `output_per_filter` read by `coincide_peak_block` and
by the global-window loop: filter name, `nu_of_excess_regions[0]`, the
per-region `max_mag_excess_region` and `max_sigma_excess_region` values
(each stored by the source as a singleton list, flattened here), and the
`jd_excess_regions` windows (one `[start, end]` pair per region). -/
structure BandOut where
  name : String
  nuExcessRegions : ℕ
  maxMagExcessRegion : List ℚ
  maxSigmaExcessRegion : List ℚ
  jdExcessRegions : List (ℚ × ℚ)
deriving DecidableEq, Repr

/-- `np.argmax`: index of the first occurrence of the maximum (0 on []). -/
def argmaxIdx : List ℚ → ℕ
  | [] => 0
  | [_] => 0
  | x :: y :: xs =>
    if (y :: xs).getD (argmaxIdx (y :: xs)) 0 ≤ x then 0
    else argmaxIdx (y :: xs) + 1

/-- `np.argmin`: index of the first occurrence of the minimum (0 on []). -/
def argminIdx : List ℚ → ℕ
  | [] => 0
  | [_] => 0
  | x :: y :: xs =>
    if x ≤ (y :: xs).getD (argminIdx (y :: xs)) 0 then 0
    else argminIdx (y :: xs) + 1

/-- `np.argmax` for flux data, `np.argmin` for magnitudes. -/
def extremeIdx (flux : Bool) (xs : List ℚ) : ℕ :=
  if flux then argmaxIdx xs else argminIdx xs

/-- The `jd_excess_regions` window of a band's most extreme excess region
(the one holding the extremum of `max_mag_excess_region`). -/
def peakWindow (flux : Bool) (b : BandOut) : ℚ × ℚ :=
  b.jdExcessRegions.getD (extremeIdx flux b.maxMagExcessRegion) (0, 0)

/-- The i-band skip: for ZTF data the spotty i band is never compared. -/
def skipBand (dt : String) (nm : String) : Bool :=
  (dt == "ztf_alert" || dt == "ztf_fp") &&
    (nm == "ZTF_i" || nm == "ztf_i" || nm == "ztfi")

/-- The three-disjunct window test of `coincide_peak_block`:
`cmp` holds the reference start, or `cmp` holds the reference end, or the
reference window holds `cmp`'s start. -/
def overlapTest (startR endR : ℚ) (cmp : ℚ × ℚ) : Bool :=
  (decide (cmp.2 ≥ startR) && decide (startR ≥ cmp.1)) ||
    (decide (cmp.2 ≥ endR) && decide (endR ≥ cmp.1)) ||
    (decide (startR ≤ cmp.1) && decide (cmp.1 ≤ endR))

/-- `coincide_peak_block`: 0 when the first (reference) band has no excess
region; otherwise the number of later, non-skipped bands with excess whose
most extreme window passes `overlapTest` against the reference's. -/
def coincideCount (flux : Bool) (dt : String) (bands : List BandOut) : ℕ :=
  match bands with
  | [] => 0
  | base :: rest =>
    if base.nuExcessRegions = 0 then 0
    else
      (rest.filter (fun c =>
        !skipBand dt c.name && c.nuExcessRegions != 0 &&
          overlapTest (peakWindow flux base).1 (peakWindow flux base).2
            (peakWindow flux c))).length

/-- The emitted `coincide_peak_block` key: `1` if the count is ≥ 1, else
`-1`. -/
def coincidePeakBlockOut (flux : Bool) (dt : String) (bands : List BandOut) : ℤ :=
  if 1 ≤ coincideCount flux dt bands then 1 else -1

/-- C2: `coincide_peak_block = 1` iff some compared (non-skipped) band with
a non-zero number of excess regions overlaps the reference band's most
extreme excess window under the three-disjunct interval test; it is `-1`
otherwise, in particular whenever the reference band has zero excess
regions. -/
theorem c2_coincide_rule (flux : Bool) (dt : String) (base : BandOut)
    (rest : List BandOut) :
    (base.nuExcessRegions = 0 →
        coincidePeakBlockOut flux dt (base :: rest) = -1) ∧
      (base.nuExcessRegions ≠ 0 →
        (coincidePeakBlockOut flux dt (base :: rest) = 1 ↔
          ∃ c ∈ rest, skipBand dt c.name = false ∧ c.nuExcessRegions ≠ 0 ∧
            overlapTest (peakWindow flux base).1 (peakWindow flux base).2
              (peakWindow flux c) = true)) := by
  constructor
  · intro h0
    simp [coincidePeakBlockOut, coincideCount, h0]
  · intro hne
    have hcnt : coincideCount flux dt (base :: rest) =
        (rest.filter (fun c =>
          !skipBand dt c.name && c.nuExcessRegions != 0 &&
            overlapTest (peakWindow flux base).1 (peakWindow flux base).2
              (peakWindow flux c))).length := by
      simp [coincideCount, hne]
    constructor
    · intro h1
      have hpos : 0 < (rest.filter (fun c =>
          !skipBand dt c.name && c.nuExcessRegions != 0 &&
            overlapTest (peakWindow flux base).1 (peakWindow flux base).2
              (peakWindow flux c))).length := by
        by_contra hc
        push_neg at hc
        have : coincideCount flux dt (base :: rest) = 0 := by omega
        simp [coincidePeakBlockOut, this] at h1
      obtain ⟨c, hc⟩ := List.exists_mem_of_length_pos hpos
      obtain ⟨hcr, hcp⟩ := List.mem_filter.mp hc
      simp only [Bool.and_eq_true, Bool.not_eq_true', bne_iff_ne] at hcp
      exact ⟨c, hcr, hcp.1.1, hcp.1.2, hcp.2⟩
    · rintro ⟨c, hcr, hskip, hnu, hov⟩
      have hc : c ∈ rest.filter (fun c =>
          !skipBand dt c.name && c.nuExcessRegions != 0 &&
            overlapTest (peakWindow flux base).1 (peakWindow flux base).2
              (peakWindow flux c)) :=
        List.mem_filter.mpr ⟨hcr, by simp [hskip, hnu, hov]⟩
      have hpos := List.length_pos_of_mem hc
      have h1 : 1 ≤ coincideCount flux dt (base :: rest) := by
        rw [hcnt]; omega
      simp [coincidePeakBlockOut, h1]

/-- Witness for `c2_coincide_rule`: two wise bands with overlapping peak
windows give `coincide_peak_block = 1`. -/
theorem c2_coincide_rule_witness :
    coincidePeakBlockOut true "wise"
        [BandOut.mk "Wise_W1" 1 [5] [7] [(0, 10)],
          BandOut.mk "Wise_W2" 1 [6] [8] [(5, 20)]] = 1 :=
  ((c2_coincide_rule true "wise" (BandOut.mk "Wise_W1" 1 [5] [7] [(0, 10)])
      [BandOut.mk "Wise_W2" 1 [6] [8] [(5, 20)]]).2 (by decide)).mpr
    ⟨BandOut.mk "Wise_W2" 1 [6] [8] [(5, 20)], by decide, by decide, by decide,
      by decide⟩

/-- `(jd_excess_regions[idxmax][0], jd_excess_regions[idxmax][-1] -
jd_excess_regions[idxmax][0])`: start and duration of a window. -/
def windowStartSize (w : ℚ × ℚ) : Option ℚ × ℚ := (some w.1, w.2 - w.1)

/-- The band's highest-`max_sigma_excess_region` window
(`idxmax = np.argmax(output[keys]["max_sigma_excess_region"])`). -/
def maxSigmaWindow (b : BandOut) : ℚ × ℚ :=
  b.jdExcessRegions.getD (argmaxIdx b.maxSigmaExcessRegion) (0, 0)

/-- The global `(start_excess, size_excess)` loop at the end of `process`:
starting from `(None, 0)`, every band with a non-zero number of excess
regions OVERWRITES the pair with the start and duration of its own
highest-sigma window. -/
def startSizeExcess (bands : List BandOut) : Option ℚ × ℚ :=
  bands.foldl
    (fun acc b =>
      if b.nuExcessRegions ≠ 0 then windowStartSize (maxSigmaWindow b) else acc)
    (none, 0)

/-- The claim's reading of the spec sentence, for comparison with
`startSizeExcess`: the window, among ALL bands with excess, whose
`max_sigma_from_baseline` value is the single largest. -/
def specStartSizeExcess (bands : List BandOut) : Option ℚ × ℚ :=
  match bands.flatMap (fun b =>
      if b.nuExcessRegions ≠ 0 then b.maxSigmaExcessRegion.zip b.jdExcessRegions
      else []) with
  | [] => (none, 0)
  | r :: rs =>
    windowStartSize (((r :: rs).getD (argmaxIdx ((r :: rs).map Prod.fst)) (0, (0, 0))).2)

/-- The last band in filter order with a non-zero number of excess regions,
and the start/duration of its highest-sigma window. -/
def lastExcessWindow (bands : List BandOut) : Option ℚ × ℚ :=
  match (bands.filter (fun b => b.nuExcessRegions != 0)).getLast? with
  | some b => windowStartSize (maxSigmaWindow b)
  | none => (none, 0)

/-- C3 counterexample: the first band's window has the largest
`max_sigma_excess_region` (10 > 4), but the emitted pair is the second
(last) band's `(100, 1)`, not the spec's `(0, 5)`. -/
theorem c3_counterexample :
    startSizeExcess
        [BandOut.mk "Wise_W1" 1 [5] [10] [(0, 5)],
          BandOut.mk "Wise_W2" 1 [4] [4] [(100, 101)]] = (some 100, 1) ∧
      specStartSizeExcess
        [BandOut.mk "Wise_W1" 1 [5] [10] [(0, 5)],
          BandOut.mk "Wise_W2" 1 [4] [4] [(100, 101)]] = (some 0, 5) ∧
      ((some 100, 1) : Option ℚ × ℚ) ≠ (some 0, 5) := by
  refine ⟨?_, ?_, by simp⟩
  · simp [startSizeExcess, windowStartSize, maxSigmaWindow, argmaxIdx]
    norm_num
  · simp [specStartSizeExcess, windowStartSize, argmaxIdx]
    norm_num

theorem startSizeExcess_foldl (bands : List BandOut) :
    ∀ acc : Option ℚ × ℚ,
      bands.foldl
        (fun acc b =>
          if b.nuExcessRegions ≠ 0 then windowStartSize (maxSigmaWindow b) else acc)
        acc =
      match (bands.filter (fun b => b.nuExcessRegions != 0)).getLast? with
      | some b => windowStartSize (maxSigmaWindow b)
      | none => acc := by
  induction bands with
  | nil => intro acc; simp
  | cons b rest ih =>
    intro acc
    by_cases hb : b.nuExcessRegions = 0
    · have hfilter : (b :: rest).filter (fun b => b.nuExcessRegions != 0) =
          rest.filter (fun b => b.nuExcessRegions != 0) := by
        simp [List.filter_cons, hb]
      rw [List.foldl_cons, hfilter, if_neg (by simpa using hb)]
      exact ih acc
    · have hfilter : (b :: rest).filter (fun b => b.nuExcessRegions != 0) =
          b :: rest.filter (fun b => b.nuExcessRegions != 0) := by
        simp [List.filter_cons, hb]
      rw [List.foldl_cons, hfilter, if_pos hb, ih]
      cases hrest : (rest.filter (fun b => b.nuExcessRegions != 0)).getLast? with
      | none =>
        have hnil : rest.filter (fun b => b.nuExcessRegions != 0) = [] := by
          cases h : rest.filter (fun b => b.nuExcessRegions != 0) with
          | nil => rfl
          | cons x xs =>
            rw [h, List.getLast?_eq_getLast_of_ne_nil (by simp)] at hrest
            simp at hrest
        rw [hnil]
        rfl
      | some v =>
        obtain ⟨x, xs, hxs⟩ : ∃ x xs,
            rest.filter (fun b => b.nuExcessRegions != 0) = x :: xs := by
          cases h : rest.filter (fun b => b.nuExcessRegions != 0) with
          | nil => rw [h] at hrest; simp at hrest
          | cons x xs => exact ⟨x, xs, rfl⟩
        rw [hxs] at hrest ⊢
        rw [List.getLast?_cons_cons, hrest]

/-- C3 amended: the emitted global pair is the start and duration of the
highest-`max_sigma_excess_region` window of the LAST band (in filter
order) with a non-zero number of excess regions — a later band overwrites
an earlier one regardless of their sigma values — and `(None, 0)` when no
band has excess. -/
theorem c3_last_band_wins (bands : List BandOut) :
    startSizeExcess bands = lastExcessWindow bands := by
  rw [startSizeExcess, lastExcessWindow, startSizeExcess_foldl]

/-- The branch of `T2DustEchoEval.process` that separates rule 2 from the
later rules: the code proceeds to rules 3-10 iff
`start_excess != None OR size_excess > 1`, otherwise it appends
"Only baseline".  `later` stands for the description the rules 3-10 block
would produce. -/
def dustEchoAfterRuleOne (startE : Option ℚ) (sizeE : ℚ) (later : String) : String :=
  if startE ≠ none ∨ sizeE > 1 then later else "Only baseline"

/-- C7 counterexample: `start_excess = 5` (not `None`) with
`size_excess = 0 ≤ 1` satisfies the claim's disjunction, yet the code takes
the then-branch and evaluates the later rules instead of emitting
"Only baseline". -/
theorem c7_counterexample :
    dustEchoAfterRuleOne (some 5) 0 "Very low sigma" = "Very low sigma" ∧
      ((some 5 : Option ℚ) = none ∨ (0 : ℚ) ≤ 1) ∧
      "Very low sigma" ≠ "Only baseline" := by
  refine ⟨?_, Or.inr (by norm_num), by decide⟩
  simp [dustEchoAfterRuleOne]

/-- C7 amended: rule 2 yields "Only baseline" exactly when `start_excess`
is `None` AND `size_excess ≤ 1` (the code's `or` means a non-`None` start
with a tiny window still reaches the later rules). -/
theorem c7_only_baseline_rule (startE : Option ℚ) (sizeE : ℚ) (later : String) :
    dustEchoAfterRuleOne startE sizeE later =
      if startE = none ∧ sizeE ≤ 1 then "Only baseline" else later := by
  rw [dustEchoAfterRuleOne]
  by_cases h : startE = none ∧ sizeE ≤ 1
  · rw [if_neg (by push_neg; exact ⟨h.1, h.2⟩), if_pos h]
  · rw [if_pos ?_, if_neg h]
    by_contra hc
    push_neg at hc
    exact h ⟨hc.1, hc.2⟩

/-- The accepted values of the `data_type` configuration
(`assert self.data_type in ["ztf_alert", "ztf_fp", "wise"]`). -/
inductive DataType where
  | wise
  | ztf_fp
  | ztf_alert
deriving DecidableEq, Repr

/-- The per-band output mapping exactly as the `len(phot_tuple) <= 1`
short-circuit fills it (keys in source order; the two `after_peak` keys are
left as the empty lists of the template). -/
structure BandShortOut where
  nu_of_excess_regions : List ℚ
  nu_of_excess_blocks : List ℚ
  nu_of_baseline_blocks : List ℚ
  jd_excess_regions : List ℚ
  mag_edge_excess : List ℚ
  max_mag_excess_region : List ℚ
  max_jd_excess_region : List ℚ
  max_sigma_excess_region : List ℚ
  max_baye_block_timescale : List ℚ
  baseline : List ℚ
  baseline_sigma : List ℚ
  baseline_rms : List ℚ
  jd_baseline_regions : List ℚ
  jd_outlier : Option (List (ℚ × ℚ))
  mag_edge_baseline : List ℚ
  sigma_from_baseline : List ℚ
  sigma_from_baseline_excess : List ℚ
  significance_of_variability_excess : List ℚ × List ℚ
  significance_of_fluctuation : List ℚ
  max_mag : List ℚ
  significance : List ℚ
  strength_sjoert : List ℚ
  significance_after_peak : List ℚ
  strength_after_peak : List ℚ
  description : List (Option ℤ)
deriving DecidableEq, Repr

/-- The "no data" result emitted when a band has ≤ 1 measurement. -/
def noDataOutput : BandShortOut :=
  { nu_of_excess_regions := [0]
    nu_of_excess_blocks := [0]
    nu_of_baseline_blocks := [0]
    jd_excess_regions := [0]
    mag_edge_excess := [0]
    max_mag_excess_region := [0]
    max_jd_excess_region := [0]
    max_sigma_excess_region := [0]
    max_baye_block_timescale := [0]
    baseline := [0]
    baseline_sigma := [0]
    baseline_rms := [0]
    jd_baseline_regions := [0]
    jd_outlier := none
    mag_edge_baseline := [0]
    sigma_from_baseline := [0]
    sigma_from_baseline_excess := [0]
    significance_of_variability_excess := ([0], [0])
    significance_of_fluctuation := [0]
    max_mag := [0]
    significance := [0]
    strength_sjoert := [0]
    significance_after_peak := []
    strength_after_peak := []
    description := [none] }

/-- Median with pandas semantics: sorted middle element, or the mean of
the two middle elements for an even count. -/
def listMedian (xs : List ℚ) : ℚ :=
  if xs.length % 2 = 1 then
    (xs.mergeSort (fun a b => decide (a ≤ b))).getD (xs.length / 2) 0
  else
    ((xs.mergeSort (fun a b => decide (a ≤ b))).getD (xs.length / 2 - 1) 0 +
      (xs.mergeSort (fun a b => decide (a ≤ b))).getD (xs.length / 2) 0) / 2

/-- The ZTF extreme-outlier rejection: a trailing window of 10 rows (in
input order) yields a rolling median and sample standard deviation
(`ddof = 1`); rows with fewer than 10 predecessors have NaN statistics, and
a comparison against NaN is false, so those rows are dropped; otherwise a
row is kept iff it lies within median ± 3·std. -/
def rollingFilter (rt : ℚ → ℚ) (rows : List Meas) : List Meas :=
  (List.range rows.length).filterMap (fun i =>
    if i + 1 < 10 then none
    else
      let w := ((rows.take (i + 1)).drop (i + 1 - 10)).map Meas.mag
      let med := listMedian w
      let sd := rt (sumSq (w.map (fun x => x - listMean w)) / (w.length - 1))
      let m := rows.getD i (Meas.mk 0 0 0)
      if m.mag ≤ med + 3 * sd ∧ m.mag ≥ med - 3 * sd then some m else none)

/-- `df.sort_values(by=["jd"])`. -/
def sortByJd (rows : List Meas) : List Meas :=
  rows.mergeSort (fun a b => decide (a.jd ≤ b.jd))

/-- `np.unique(df["jd"], return_index=True)` on the time-sorted frame:
keep the first row of each equal-`jd` run. -/
def dedupByJd : List Meas → List Meas
  | [] => []
  | [m] => [m]
  | m :: m2 :: rest =>
    if m.jd = m2.jd then dedupByJd (m :: rest) else m :: dedupByJd (m2 :: rest)
termination_by rows => rows.length

/-- The complexity prior: assigned only for `data_type == "wise"`
(`1.32 + 0.577·log10 N`) and `"ztf_fp"` (`10·log10 N`); for the accepted
`"ztf_alert"` no branch assigns it, leaving the local unbound (`none`).
`lg` abstracts `math.log10`. -/
def ncpPrior (lg : ℕ → ℚ) (dt : DataType) (n : ℕ) : Option ℚ :=
  match dt with
  | DataType.wise => some (132 / 100 + 577 / 1000 * lg n)
  | DataType.ztf_fp => some (10 * lg n)
  | DataType.ztf_alert => none

/-- What one `process` loop iteration produces for a band, up to the
segmentation call: the short-circuit "no data" mapping, or the edge list
returned by the change-point primitive together with the prepared frame. -/
inductive BandResult where
  | noData (out : BandShortOut)
  | analyzed (edges : List ℚ) (df : List Meas)
deriving DecidableEq, Repr

/-- One `process` loop iteration for a band, through the `bayesian_blocks`
call: the `ztf_alert`+flux retrieval raises, a band with ≤ 1 row emits the
zeroed mapping and continues, ZTF data is rolling-filtered, the frame is
time-sorted, and the segmentation primitive `seg` is called on de-duplicated
times with the `ncp_prior` — which for `ztf_alert` was never assigned, so
evaluating the call raises `UnboundLocalError`. -/
def processBand (seg : List ℚ → List ℚ → List ℚ → ℚ → List ℚ)
    (rt : ℚ → ℚ) (lg : ℕ → ℚ) (dt : DataType) (flux : Bool)
    (phot : List Meas) : Except String BandResult :=
  if dt = DataType.ztf_alert ∧ flux then
    Except.error "ValueError: Not implemented yet"
  else if phot.length ≤ 1 then
    Except.ok (BandResult.noData noDataOutput)
  else
    let df := sortByJd (if dt = DataType.wise then phot else rollingFilter rt phot)
    match ncpPrior lg dt df.length with
    | none => Except.error "UnboundLocalError: ncp_prior"
    | some p =>
      let u := dedupByJd df
      Except.ok (BandResult.analyzed
        (seg (u.map Meas.jd) (u.map Meas.mag) (u.map Meas.magErr) p) df)

/-- The per-band loop over `self.filter`. -/
def processBands (seg : List ℚ → List ℚ → List ℚ → ℚ → List ℚ)
    (rt : ℚ → ℚ) (lg : ℕ → ℚ) (dt : DataType) (flux : Bool)
    (bands : List (List Meas)) : List (Except String BandResult) :=
  bands.map (processBand seg rt lg dt flux)

/-- C9: a band with at most one measurement short-circuits: for EVERY
segmentation primitive `seg` the result is the `noData` mapping (the
primitive is never consulted), every list field of that mapping holds no
value other than 0, `jd_outlier` is `None`, `description` is `[None]`, and
the remaining bands are processed exactly as they would be on their own. -/
theorem c9_no_data_short_circuit
    (rt : ℚ → ℚ) (lg : ℕ → ℚ) (dt : DataType) (flux : Bool)
    (phot : List Meas) (rest : List (List Meas))
    (hlen : phot.length ≤ 1) (hnv : ¬(dt = DataType.ztf_alert ∧ flux = true)) :
    (∀ s : List ℚ → List ℚ → List ℚ → ℚ → List ℚ,
        processBand s rt lg dt flux phot =
          Except.ok (BandResult.noData noDataOutput)) ∧
      (∀ x ∈ noDataOutput.nu_of_excess_regions, x = 0) ∧
      (∀ x ∈ noDataOutput.nu_of_excess_blocks, x = 0) ∧
      (∀ x ∈ noDataOutput.nu_of_baseline_blocks, x = 0) ∧
      (∀ x ∈ noDataOutput.jd_excess_regions, x = 0) ∧
      (∀ x ∈ noDataOutput.mag_edge_excess, x = 0) ∧
      (∀ x ∈ noDataOutput.max_mag_excess_region, x = 0) ∧
      (∀ x ∈ noDataOutput.max_jd_excess_region, x = 0) ∧
      (∀ x ∈ noDataOutput.max_sigma_excess_region, x = 0) ∧
      (∀ x ∈ noDataOutput.max_baye_block_timescale, x = 0) ∧
      (∀ x ∈ noDataOutput.baseline, x = 0) ∧
      (∀ x ∈ noDataOutput.baseline_sigma, x = 0) ∧
      (∀ x ∈ noDataOutput.baseline_rms, x = 0) ∧
      (∀ x ∈ noDataOutput.jd_baseline_regions, x = 0) ∧
      noDataOutput.jd_outlier = none ∧
      (∀ x ∈ noDataOutput.mag_edge_baseline, x = 0) ∧
      (∀ x ∈ noDataOutput.sigma_from_baseline, x = 0) ∧
      (∀ x ∈ noDataOutput.sigma_from_baseline_excess, x = 0) ∧
      (∀ x ∈ noDataOutput.significance_of_variability_excess.1, x = 0) ∧
      (∀ x ∈ noDataOutput.significance_of_variability_excess.2, x = 0) ∧
      (∀ x ∈ noDataOutput.significance_of_fluctuation, x = 0) ∧
      (∀ x ∈ noDataOutput.max_mag, x = 0) ∧
      (∀ x ∈ noDataOutput.significance, x = 0) ∧
      (∀ x ∈ noDataOutput.strength_sjoert, x = 0) ∧
      (∀ x ∈ noDataOutput.significance_after_peak, x = 0) ∧
      (∀ x ∈ noDataOutput.strength_after_peak, x = 0) ∧
      noDataOutput.description = [none] ∧
      (∀ s : List ℚ → List ℚ → List ℚ → ℚ → List ℚ,
        processBands s rt lg dt flux (phot :: rest) =
          Except.ok (BandResult.noData noDataOutput) ::
            processBands s rt lg dt flux rest) := by
  have hband : ∀ s : List ℚ → List ℚ → List ℚ → ℚ → List ℚ,
      processBand s rt lg dt flux phot =
        Except.ok (BandResult.noData noDataOutput) := by
    intro s
    rw [processBand, if_neg hnv, if_pos hlen]
  refine ⟨hband, ?_, ?_, ?_, ?_, ?_, ?_, ?_, ?_, ?_, ?_, ?_, ?_, ?_, rfl, ?_,
    ?_, ?_, ?_, ?_, ?_, ?_, ?_, ?_, ?_, ?_, rfl, fun s => ?_⟩ <;>
    first
      | (intro x hx; simp [noDataOutput] at hx; simp [hx])
      | (intro x hx; simp [noDataOutput] at hx)
      | simp [processBands, hband]

/-- Witness for `c9_no_data_short_circuit`: one wise band holding a single
measurement. -/
theorem c9_no_data_short_circuit_witness :
    processBand (fun _ _ _ _ => []) id (fun _ => 0) DataType.wise false
        [Meas.mk 0 1 1] = Except.ok (BandResult.noData noDataOutput) :=
  (c9_no_data_short_circuit id (fun _ => 0) DataType.wise
      false [Meas.mk 0 1 1] [] (by simp) (by simp)).1 (fun _ _ _ _ => [])

/-- C10: for the accepted configuration `data_type = "ztf_alert"` (with the
only implemented `flux = False` retrieval) and a band of at least 2
measurements, `process` reaches the `bayesian_blocks` call with `ncp_prior`
never assigned — it is only set for `"wise"` and `"ztf_fp"` — so the band
evaluation fails with an unbound-local error instead of producing a
per-band result. -/
theorem c10_ncp_prior_unbound (seg : List ℚ → List ℚ → List ℚ → ℚ → List ℚ)
    (rt : ℚ → ℚ) (lg : ℕ → ℚ) (phot : List Meas) (hlen : 2 ≤ phot.length) :
    processBand seg rt lg DataType.ztf_alert false phot =
      Except.error "UnboundLocalError: ncp_prior" := by
  rw [processBand, if_neg (by simp), if_neg (by omega)]
  simp [ncpPrior]

/-- Witness for `c10_ncp_prior_unbound`: a two-point `ztf_alert` band. -/
theorem c10_ncp_prior_unbound_witness :
    processBand (fun _ _ _ _ => []) id (fun _ => 0) DataType.ztf_alert false
        [Meas.mk 0 1 1, Meas.mk 1 2 1] =
      Except.error "UnboundLocalError: ncp_prior" :=
  c10_ncp_prior_unbound (fun _ _ _ _ => []) id (fun _ => 0)
    [Meas.mk 0 1 1, Meas.mk 1 2 1] (by simp)

/-- One block row as the outlier detector and the baseline-region output
loop read it: `level`, `measurements_nu`, the `Npoints` cell (a numpy array
holding one entry per member measurement), `sigma_from_baseline`, the
measurement-time span and `mag_edge`. -/
structure OBlk where
  level : Level
  measurements_nu : ℚ
  npoints : List ℚ
  sigma_from_baseline : ℚ
  jd_measurement_start : ℚ
  jd_measurement_end : ℚ
  mag_edge : ℚ
deriving DecidableEq, Repr

/-- Junk row used for out-of-range `getD` reads (never exercised by the
theorems). -/
def oblkDefault : OBlk := OBlk.mk Level.unset 0 [] 0 0 0 0

/-- A raw dataframe row as the outlier detector touches it. -/
structure DfRow where
  jd : ℚ
  outlier : Bool
deriving DecidableEq, Repr

/-- Python truthiness of `baye_block["Npoints"][i] == 1` where the cell is
a numpy array: a singleton array compares elementwise and converts to its
single bool; a longer array raises the ambiguous-truth-value error. -/
def npointsIsOne : List ℚ → Except String Bool
  | [] => Except.ok false
  | [x] => Except.ok (x == 1)
  | _ => Except.error "ValueError: ambiguous truth value of an array"

/-- `df.loc[df.index[df["jd"].between(lo, hi, inclusive=True)].tolist()[0],
"Outlier"] = True`: mark the FIRST row inside the span (an empty selection
raises `IndexError`). -/
def markFirstInSpan (df : List DfRow) (lo hi : ℚ) : Except String (List DfRow) :=
  match df.findIdx? (fun r => decide (lo ≤ r.jd) && decide (r.jd ≤ hi)) with
  | some i => Except.ok (df.set i { df.getD i (DfRow.mk 0 false) with outlier := true })
  | none => Except.error "IndexError: list index out of range"

/-- One iteration of the `outliers` loop for a single excess region: a
length-1 region whose block has `measurements_nu < 5`, a singleton
`Npoints` cell equal to 1 and `sigma_from_baseline > 5` marks the first
raw row in the block's span and demotes the block to `outlier`. -/
def outlierStep (df : List DfRow) (blocks : List OBlk) (region : List ℕ) :
    Except String (List DfRow × List OBlk) :=
  match region with
  | [i] =>
    let b := blocks.getD i oblkDefault
    if b.measurements_nu < 5 then
      match npointsIsOne b.npoints with
      | Except.error e => Except.error e
      | Except.ok isOne =>
        if isOne ∧ b.sigma_from_baseline > 5 then
          match markFirstInSpan df b.jd_measurement_start b.jd_measurement_end with
          | Except.error e => Except.error e
          | Except.ok df2 =>
            Except.ok (df2, blocks.set i { b with level := Level.outlier })
        else Except.ok (df, blocks)
    else Except.ok (df, blocks)
  | _ => Except.ok (df, blocks)

/-- The `outliers` method: fold `outlierStep` over the excess regions. -/
def outliersFn (regions : List (List ℕ)) (df : List DfRow)
    (blocks : List OBlk) : Except String (List DfRow × List OBlk) :=
  regions.foldlM (fun st region => outlierStep st.1 st.2 region) (df, blocks)

/-- One entry of the baseline-region output loop (`process` lines 707-742):
a run ending in an outlier (length ≠ 1) reports `len - 1` blocks and takes
span end and edge magnitude from the second-to-last block; a run starting
with an outlier (length ≠ 1) reports `len - 1` and starts the span at the
second block; a length-1 outlier run is dropped; otherwise the full run is
reported. -/
def baselineRegionEntry (blocks : List OBlk) (g : List ℕ) :
    Option (ℕ × (ℚ × ℚ) × ℚ) :=
  match g with
  | [] => none
  | i0 :: rest =>
    let last := (i0 :: rest).getLast (List.cons_ne_nil i0 rest)
    if (blocks.getD last oblkDefault).level = Level.outlier then
      if (i0 :: rest).length ≠ 1 then
        some ((i0 :: rest).length - 1,
          ((blocks.getD i0 oblkDefault).jd_measurement_start,
            (blocks.getD (last - 1) oblkDefault).jd_measurement_end),
          (blocks.getD (last - 1) oblkDefault).mag_edge)
      else none
    else if (blocks.getD i0 oblkDefault).level = Level.outlier then
      if (i0 :: rest).length ≠ 1 then
        some ((i0 :: rest).length - 1,
          ((blocks.getD (i0 + 1) oblkDefault).jd_measurement_start,
            (blocks.getD last oblkDefault).jd_measurement_end),
          (blocks.getD last oblkDefault).mag_edge)
      else none
    else
      some ((i0 :: rest).length,
        ((blocks.getD i0 oblkDefault).jd_measurement_start,
          (blocks.getD last oblkDefault).jd_measurement_end),
        (blocks.getD last oblkDefault).mag_edge)

/-- The `nu_of_baseline_blocks` / `jd_baseline_regions` /
`mag_edge_baseline` accumulation over the non-excess runs. -/
def baselineRegionStats (blocks : List OBlk) (groups : List (List ℕ)) :
    List (ℕ × (ℚ × ℚ) × ℚ) :=
  groups.filterMap (baselineRegionEntry blocks)

/-- C5 counterexample: a single-block excess region holding exactly 1
measurement with z-score 6 > 5 is NOT demoted, because its `Npoints` cell
is 3 (≠ 1): `outliers` leaves the frame and the block table unchanged. -/
theorem c5_counterexample :
    outliersFn [[1]] [DfRow.mk 10 false]
          [OBlk.mk Level.baseline 4 [1] 1 0 5 7,
            OBlk.mk Level.excess 1 [3] 6 10 10 9,
            OBlk.mk Level.baseline 3 [1] 1 20 30 7] =
        Except.ok ([DfRow.mk 10 false],
          [OBlk.mk Level.baseline 4 [1] 1 0 5 7,
            OBlk.mk Level.excess 1 [3] 6 10 10 9,
            OBlk.mk Level.baseline 3 [1] 1 20 30 7]) ∧
      (OBlk.mk Level.excess 1 [3] 6 10 10 9).measurements_nu = 1 ∧
      (OBlk.mk Level.excess 1 [3] 6 10 10 9).sigma_from_baseline > 5 ∧
      (OBlk.mk Level.excess 1 [3] 6 10 10 9).level = Level.excess := by
  refine ⟨?_, by norm_num, by norm_num, rfl⟩
  rfl

/-- C5 amended: in Npoints mode, a single-block excess region whose block
has fewer than 5 measurements, a singleton `Npoints` cell equal to 1 and
z-score above 5 is demoted to `outlier`, and the FIRST raw measurement in
its time span is marked as an outlier (for a 1-measurement block, its only
measurement); and a non-excess run of length ≥ 2 that ENDS in an outlier
block reports `len - 1` baseline blocks with span end and edge magnitude
taken from the preceding block — the outlier is excluded only when it sits
at a boundary of its run. -/
theorem c5_outlier_demotion (df : List DfRow) (blocks : List OBlk) (i : ℕ)
    (hnu : (blocks.getD i oblkDefault).measurements_nu < 5)
    (hnp : (blocks.getD i oblkDefault).npoints = [1])
    (hsig : (blocks.getD i oblkDefault).sigma_from_baseline > 5)
    (hrow : ∃ r ∈ df,
      (blocks.getD i oblkDefault).jd_measurement_start ≤ r.jd ∧
        r.jd ≤ (blocks.getD i oblkDefault).jd_measurement_end) :
    (∃ j, df.findIdx? (fun r =>
          decide ((blocks.getD i oblkDefault).jd_measurement_start ≤ r.jd) &&
            decide (r.jd ≤ (blocks.getD i oblkDefault).jd_measurement_end)) =
            some j ∧
        outlierStep df blocks [i] =
          Except.ok (df.set j { df.getD j (DfRow.mk 0 false) with outlier := true },
            blocks.set i { blocks.getD i oblkDefault with level := Level.outlier })) ∧
      (∀ (bs : List OBlk) (i0 : ℕ) (rest : List ℕ), rest ≠ [] →
        (bs.getD ((i0 :: rest).getLast (List.cons_ne_nil i0 rest))
              oblkDefault).level = Level.outlier →
        baselineRegionEntry bs (i0 :: rest) =
          some ((i0 :: rest).length - 1,
            ((bs.getD i0 oblkDefault).jd_measurement_start,
              (bs.getD ((i0 :: rest).getLast (List.cons_ne_nil i0 rest) - 1)
                  oblkDefault).jd_measurement_end),
            (bs.getD ((i0 :: rest).getLast (List.cons_ne_nil i0 rest) - 1)
                oblkDefault).mag_edge)) := by
  constructor
  · have hfind : (df.findIdx? (fun r =>
        decide ((blocks.getD i oblkDefault).jd_measurement_start ≤ r.jd) &&
          decide (r.jd ≤ (blocks.getD i oblkDefault).jd_measurement_end))).isSome := by
      rw [List.findIdx?_isSome, List.any_eq_true]
      obtain ⟨r, hr, h1, h2⟩ := hrow
      refine ⟨r, hr, ?_⟩
      simp only [Bool.and_eq_true, decide_eq_true_eq]
      exact ⟨h1, h2⟩
    obtain ⟨j, hj⟩ := Option.isSome_iff_exists.mp hfind
    refine ⟨j, hj, ?_⟩
    simp only [outlierStep]
    rw [if_pos hnu, hnp]
    simp only [npointsIsOne]
    rw [if_pos ⟨by simp, hsig⟩]
    rw [markFirstInSpan, hj]
  · intro bs i0 rest hne hlast
    have hlen0 : rest.length ≠ 0 := fun h => hne (List.length_eq_zero.mp h)
    have hlen : (i0 :: rest).length ≠ 1 := by simp only [List.length_cons]; omega
    simp only [baselineRegionEntry]
    rw [if_pos hlast, if_pos hlen]

/-- Witness for `c5_outlier_demotion`: a 1-measurement excess block with
`Npoints` cell `[1]`, z-score 6 and span `[10, 10]`. -/
theorem c5_outlier_demotion_witness :
    (∃ j,
        [DfRow.mk 10 false].findIdx?
            (fun r => decide ((10 : ℚ) ≤ r.jd) && decide (r.jd ≤ (10 : ℚ))) =
          some j ∧
        outlierStep [DfRow.mk 10 false]
            [OBlk.mk Level.baseline 4 [2] 1 0 5 7,
              OBlk.mk Level.excess 1 [1] 6 10 10 9,
              OBlk.mk Level.baseline 3 [2] 1 20 30 7] [1] =
          Except.ok
            ([DfRow.mk 10 false].set j
                { [DfRow.mk 10 false].getD j (DfRow.mk 0 false) with outlier := true },
              [OBlk.mk Level.baseline 4 [2] 1 0 5 7,
                OBlk.mk Level.excess 1 [1] 6 10 10 9,
                OBlk.mk Level.baseline 3 [2] 1 20 30 7].set 1
                { OBlk.mk Level.excess 1 [1] 6 10 10 9 with level := Level.outlier })) ∧
      (∀ (bs : List OBlk) (i0 : ℕ) (rest : List ℕ), rest ≠ [] →
        (bs.getD ((i0 :: rest).getLast (List.cons_ne_nil i0 rest))
              oblkDefault).level = Level.outlier →
        baselineRegionEntry bs (i0 :: rest) =
          some ((i0 :: rest).length - 1,
            ((bs.getD i0 oblkDefault).jd_measurement_start,
              (bs.getD ((i0 :: rest).getLast (List.cons_ne_nil i0 rest) - 1)
                  oblkDefault).jd_measurement_end),
            (bs.getD ((i0 :: rest).getLast (List.cons_ne_nil i0 rest) - 1)
                oblkDefault).mag_edge)) :=
  c5_outlier_demotion [DfRow.mk 10 false]
    [OBlk.mk Level.baseline 4 [2] 1 0 5 7,
      OBlk.mk Level.excess 1 [1] 6 10 10 9,
      OBlk.mk Level.baseline 3 [2] 1 20 30 7] 1
    (by decide) (by decide) (by decide) (by decide)

/-- Junk block for out-of-range `getD` reads (never exercised). -/
def blkDefault : Blk := Blk.mk 0 none [] Level.unset

/-- `baye_block.sort_values(by="mag.err", ascending=False)["mag.err"].iloc[0]`:
pandas sorts NaN last, so this is the largest defined block error, or NaN
(`none`) when every block error is NaN. -/
def maxDefinedErr (blocks : List Blk) : Option ℚ :=
  (blocks.filterMap Blk.err).foldl
    (fun acc e =>
      match acc with
      | none => some e
      | some a => some (max a e))
    none

/-- `if np.isnan(baseline_sigma): baseline_sigma = <largest block error>`. -/
def fallbackSigma (s : Option ℚ) (blocks : List Blk) : Option ℚ :=
  match s with
  | none => maxDefinedErr blocks
  | some v => some v

/-- Mean and propagated scatter of the BLOCK-level values of the blocks
currently labelled baseline (`np.mean(uarray(mags, errs))` over
`baye_block[level == "baseline"]`), used by the merge branch of
`baseline`. -/
def levelStats (rt : ℚ → ℚ) (blocks : List Blk) : ℚ × Option ℚ :=
  let bl := blocks.filter (fun b => b.level == Level.baseline)
  (listMean (bl.map Blk.mag),
    if bl ≠ [] ∧ (bl.map Blk.err).all Option.isSome then
      some (rt (sumSq (bl.filterMap Blk.err)) / bl.length)
    else none)

/-- Relabel block `i`. -/
def setLevel (blocks : List Blk) (i : ℕ) (lvl : Level) : List Blk :=
  blocks.set i { blocks.getD i blkDefault with level := lvl }

/-- The `baseline` method before its NaN fallback: the candidate is the
block of extremal `mag` (max for magnitudes, min for flux); its `mag` and
`mag.err` are the provisional pair, except that a single-measurement
candidate is locked as baseline together with the first block matching the
second-most-quiescent `mag` (ascending `sort_values` position 1 for flux,
position -2 otherwise), and the pair is then the mean/propagated scatter
of the locked blocks' block-level values. -/
def baselineCore (rt : ℚ → ℚ) (flux : Bool) (blocks : List Blk) :
    (ℚ × Option ℚ) × List Blk :=
  let mags := blocks.map Blk.mag
  let i := if flux then argminIdx mags else argmaxIdx mags
  let cand := blocks.getD i blkDefault
  if cand.members.length = 1 then
    let sorted := mags.mergeSort (fun a b => decide (a ≤ b))
    let second := if flux then sorted.getD 1 0 else sorted.getD (sorted.length - 2) 0
    let j := blocks.findIdx (fun b => b.mag == second)
    let blocks2 := setLevel (setLevel blocks i Level.baseline) j Level.baseline
    (levelStats rt blocks2, blocks2)
  else
    ((cand.mag, cand.err), blocks)

/-- The `baseline` method: `baselineCore` followed by the NaN fallback on
the scatter. -/
def baselineFn (rt : ℚ → ℚ) (flux : Bool) (blocks : List Blk) :
    (ℚ × Option ℚ) × List Blk :=
  (((baselineCore rt flux blocks).1.1,
      fallbackSigma (baselineCore rt flux blocks).1.2 (baselineCore rt flux blocks).2),
    (baselineCore rt flux blocks).2)

/-- One classification pass
(`baye_block[level != "baseline"] = baye_block_levels(...)`): rows already
labelled baseline are not passed in; a NaN baseline scatter makes every
comparison false, so each processed row lands in the `excess` branch. -/
def passOnce (rej b : ℚ) (s : Option ℚ) (blocks : List Blk) : List Blk :=
  blocks.map (fun bl =>
    if bl.level = Level.baseline then bl
    else
      { bl with
        level :=
          match s with
          | none => Level.excess
          | some sv => bayeBlockLevelStep rej b sv bl.mag bl.err bl.level })

/-- The in-loop refinement (lines 553-594): mean and propagated scatter of
the CONSTITUENT MEASUREMENTS of all blocks currently labelled baseline
(`uarray(chain(*baseline_values), chain(*baseline_error_values))`); an
empty baseline set or a NaN measurement error gives a NaN scatter. -/
def recomputeStats (rt : ℚ → ℚ) (blocks : List Blk) : ℚ × Option ℚ :=
  let ms := (blocks.filter (fun b => b.level == Level.baseline)).flatMap Blk.members
  (listMean (ms.map Prod.fst),
    if ms ≠ [] ∧ (ms.map Prod.snd).all Option.isSome then
      some (rt (sumSq (ms.filterMap Prod.snd)) / ms.length)
    else none)

/-- The two-pass LevelClassifier loop
(`for sigma_discr in ["sigma_from_old_baseline", "sigma_from_baseline"]`):
provisional baseline, pass 1, refined baseline, pass 2, refined baseline
again; returns the converged block table and the final
`(baseline, baseline_sigma)`. -/
def twoPassLoop (rt : ℚ → ℚ) (rej : ℚ) (flux : Bool) (blocks : List Blk) :
    List Blk × (ℚ × Option ℚ) :=
  let st := baselineFn rt flux blocks
  let bs1 := passOnce rej st.1.1 st.1.2 st.2
  let p1 := recomputeStats rt bs1
  let bs2 := passOnce rej p1.1 p1.2 bs1
  let p2 := recomputeStats rt bs2
  (bs2, p2)

/-- Square-root table for concrete inputs: exact on every value the
counterexample inputs reach (see `rtTab_sound`), 0 elsewhere. -/
def rtTab : ℚ → ℚ := fun x =>
  if x = 25 then 5
  else if x = 1 / 4 then 1 / 2
  else if x = 36 / 25 then 6 / 5
  else if x = 1764 / 25 then 42 / 5
  else if x = 1 / 100 then 1 / 10
  else if x = 169 / 100 then 13 / 10
  else if x = 289 / 4 then 17 / 2
  else 0

/-- `rtTab` is a genuine square root on every key it is consulted at. -/
theorem rtTab_sound :
    rtTab 25 * rtTab 25 = 25 ∧ 0 ≤ rtTab 25 ∧
      rtTab (1 / 4) * rtTab (1 / 4) = 1 / 4 ∧ 0 ≤ rtTab (1 / 4) ∧
      rtTab (36 / 25) * rtTab (36 / 25) = 36 / 25 ∧ 0 ≤ rtTab (36 / 25) ∧
      rtTab (1764 / 25) * rtTab (1764 / 25) = 1764 / 25 ∧ 0 ≤ rtTab (1764 / 25) ∧
      rtTab (1 / 100) * rtTab (1 / 100) = 1 / 100 ∧ 0 ≤ rtTab (1 / 100) ∧
      rtTab (169 / 100) * rtTab (169 / 100) = 169 / 100 ∧ 0 ≤ rtTab (169 / 100) ∧
      rtTab (289 / 4) * rtTab (289 / 4) = 289 / 4 ∧ 0 ≤ rtTab (289 / 4) := by
  norm_num [rtTab]

/-- The largest defined per-measurement error across the whole series (the
claim's fallback value for C6). -/
def maxMemberErr (blocks : List Blk) : Option ℚ :=
  (blocks.flatMap (fun b => b.members.filterMap Prod.snd)).foldl
    (fun acc e =>
      match acc with
      | none => some e
      | some a => some (max a e))
    none

/-- C6 counterexample: the quiescent candidate's scatter is NaN, the
fallback returns the largest BLOCK error `5/2` (the propagated error
`sqrt(3² + 4²)/2` of the other block), but the largest per-measurement
error observed in the entire series is `4`. -/
theorem c6_counterexample :
    (baselineCore rtTab false
          [mkBlk rtTab [(5, some 3), (5, some 4)],
            mkBlk rtTab [(10, none), (10, some 1)]]).1.2 = none ∧
      (baselineFn rtTab false
          [mkBlk rtTab [(5, some 3), (5, some 4)],
            mkBlk rtTab [(10, none), (10, some 1)]]).1.2 = some (5 / 2) ∧
      maxMemberErr
          [mkBlk rtTab [(5, some 3), (5, some 4)],
            mkBlk rtTab [(10, none), (10, some 1)]] = some 4 ∧
      (5 / 2 : ℚ) ≠ 4 := by
  refine ⟨?_, ?_, ?_, by norm_num⟩
  · norm_num [baselineCore, mkBlk, listMean, propErr, sumSq, argmaxIdx, rtTab]
  · norm_num [baselineFn, baselineCore, fallbackSigma, maxDefinedErr, mkBlk,
      listMean, propErr, sumSq, argmaxIdx, rtTab, List.filterMap_cons,
      List.foldl_cons, List.foldl_nil]
  · norm_num [maxMemberErr, mkBlk, listMean, propErr, sumSq, rtTab,
      List.filterMap_cons, List.foldl_cons, List.foldl_nil, max_def]

theorem foldlMax_go (l : List ℚ) : ∀ a : ℚ,
    ∃ m, l.foldl
        (fun acc e =>
          match acc with
          | none => some e
          | some a => some (max a e))
        (some a) = some m ∧ (m = a ∨ m ∈ l) ∧ a ≤ m ∧ ∀ e ∈ l, e ≤ m := by
  induction l with
  | nil => intro a; exact ⟨a, rfl, Or.inl rfl, le_refl a, by simp⟩
  | cons x xs ih =>
    intro a
    obtain ⟨m, hm, hmem, hle, hall⟩ := ih (max a x)
    refine ⟨m, hm, ?_, le_trans (le_max_left a x) hle, ?_⟩
    · rcases hmem with h | h
      · rcases max_choice a x with hc | hc
        · exact Or.inl (h.trans hc)
        · exact Or.inr (by rw [h, hc]; exact List.mem_cons_self x xs)
      · exact Or.inr (List.mem_cons_of_mem x h)
    · intro e he
      rcases List.mem_cons.mp he with rfl | he'
      · exact le_trans (le_max_right a e) hle
      · exact hall e he'

theorem foldlMax_spec (l : List ℚ) (hne : l ≠ []) :
    ∃ m, l.foldl
        (fun acc e =>
          match acc with
          | none => some e
          | some a => some (max a e))
        none = some m ∧ m ∈ l ∧ ∀ e ∈ l, e ≤ m := by
  cases l with
  | nil => exact absurd rfl hne
  | cons x xs =>
    obtain ⟨m, hm, hmem, hle, hall⟩ := foldlMax_go xs x
    refine ⟨m, hm, ?_, ?_⟩
    · rcases hmem with h | h
      · exact h ▸ List.mem_cons_self x xs
      · exact List.mem_cons_of_mem x h
    · intro e he
      rcases List.mem_cons.mp he with rfl | he'
      · exact hle
      · exact hall e he'

/-- C6 amended: whenever the scatter computed by `baseline` is NaN, the
NaN fallback returns the largest defined BLOCK-level error (`mag.err` over
the block table, which equals the measurement error only for
single-measurement blocks), and the result is not NaN as long as at least
one block error is defined; it is NOT in general the largest
per-measurement error of the series. -/
theorem c6_nan_fallback (rt : ℚ → ℚ) (flux : Bool) (blocks : List Blk)
    (hnan : (baselineCore rt flux blocks).1.2 = none)
    (hne : (baselineCore rt flux blocks).2.filterMap Blk.err ≠ []) :
    ∃ m, (baselineFn rt flux blocks).1.2 = some m ∧
      m ∈ (baselineCore rt flux blocks).2.filterMap Blk.err ∧
      ∀ e ∈ (baselineCore rt flux blocks).2.filterMap Blk.err, e ≤ m := by
  obtain ⟨m, hm, hmem, hall⟩ := foldlMax_spec _ hne
  refine ⟨m, ?_, hmem, hall⟩
  rw [baselineFn]
  simp only [hnan, fallbackSigma, maxDefinedErr]
  exact hm

/-- Witness for `c6_nan_fallback` at the two-block table of
`c6_counterexample`. -/
theorem c6_nan_fallback_witness :
    ∃ m, (baselineFn rtTab false
          [mkBlk rtTab [(5, some 3), (5, some 4)],
            mkBlk rtTab [(10, none), (10, some 1)]]).1.2 = some m ∧
      m ∈ (baselineCore rtTab false
          [mkBlk rtTab [(5, some 3), (5, some 4)],
            mkBlk rtTab [(10, none), (10, some 1)]]).2.filterMap Blk.err ∧
      ∀ e ∈ (baselineCore rtTab false
          [mkBlk rtTab [(5, some 3), (5, some 4)],
            mkBlk rtTab [(10, none), (10, some 1)]]).2.filterMap Blk.err, e ≤ m :=
  c6_nan_fallback rtTab false
    [mkBlk rtTab [(5, some 3), (5, some 4)],
      mkBlk rtTab [(10, none), (10, some 1)]]
    (by norm_num [baselineCore, mkBlk, listMean, propErr, sumSq, argmaxIdx, rtTab])
    (by norm_num [baselineCore, mkBlk, listMean, propErr, sumSq, argmaxIdx, rtTab,
      List.filterMap_cons])

theorem passOnce_preserves_baseline (rej b : ℚ) (s : Option ℚ)
    (blocks : List Blk) (i : ℕ)
    (hb : (blocks.getD i blkDefault).level = Level.baseline) :
    ((passOnce rej b s blocks).getD i blkDefault).level = Level.baseline := by
  by_cases hi : i < blocks.length
  · have hlen : i < (passOnce rej b s blocks).length := by
      simpa [passOnce] using hi
    rw [List.getD_eq_getElem?_getD, List.getElem?_eq_getElem hlen, Option.getD_some]
    rw [List.getD_eq_getElem?_getD, List.getElem?_eq_getElem hi, Option.getD_some] at hb
    show ((passOnce rej b s blocks)[i]).level = Level.baseline
    simp only [passOnce, List.getElem_map]
    rw [if_pos hb]
    exact hb
  · exfalso
    rw [List.getD_eq_getElem?_getD, List.getElem?_eq_none (by omega),
      Option.getD_none] at hb
    simp [blkDefault] at hb

/-- C8 amended: re-running the second pass (with the baseline value and
scatter recomputed from the converged partition's baseline blocks) never
changes a baseline block — only non-baseline rows are reclassified, so the
baseline set can only grow; the partition need not be identical, because an
excess block can satisfy the baseline test under the final, wider scatter
(`c8_counterexample`). -/
theorem c8_second_pass_rerun (rt : ℚ → ℚ) (rej : ℚ) (flux : Bool)
    (blocks : List Blk) (i : ℕ)
    (hb : ((twoPassLoop rt rej flux blocks).1.getD i blkDefault).level =
      Level.baseline) :
    ((passOnce rej (twoPassLoop rt rej flux blocks).2.1
        (twoPassLoop rt rej flux blocks).2.2
        (twoPassLoop rt rej flux blocks).1).getD i blkDefault).level =
      Level.baseline :=
  passOnce_preserves_baseline rej (twoPassLoop rt rej flux blocks).2.1
    (twoPassLoop rt rej flux blocks).2.2 (twoPassLoop rt rej flux blocks).1 i hb

/-- Member measurements of the four blocks of `c8_counterexample`. -/
def mA : List (ℚ × Option ℚ) := [(10, some (3 / 10)), (10, some (2 / 5))]

def mZ : List (ℚ × Option ℚ) := [(93 / 10, some (6 / 5))]

def mY : List (ℚ × Option ℚ) := [(46 / 5, some (42 / 5))]

def mX : List (ℚ × Option ℚ) := [(8, some (1 / 10))]

theorem level_unset_ne_baseline : Level.unset ≠ Level.baseline := by decide

theorem level_excess_ne_baseline : Level.excess ≠ Level.baseline := by decide

theorem level_outlier_ne_baseline : Level.outlier ≠ Level.baseline := by decide

theorem level_beq_unset_baseline : (Level.unset == Level.baseline) = false := by decide

theorem level_beq_excess_baseline : (Level.excess == Level.baseline) = false := by decide

theorem level_beq_outlier_baseline : (Level.outlier == Level.baseline) = false := by decide

theorem level_beq_baseline_baseline : (Level.baseline == Level.baseline) = true := by decide

attribute [simp] level_unset_ne_baseline level_excess_ne_baseline
  level_outlier_ne_baseline level_beq_unset_baseline level_beq_excess_baseline
  level_beq_outlier_baseline level_beq_baseline_baseline

set_option maxHeartbeats 2000000 in
/-- C8 counterexample: on this four-block band the converged two-pass
partition labels block 3 `excess`, but re-running the second pass with the
baseline value and scatter recomputed from the converged partition's
baseline blocks flips it to `baseline`: the classification is NOT
idempotent. -/
theorem c8_counterexample :
    (twoPassLoop rtTab 3 false
          [mkBlk rtTab mA, mkBlk rtTab mZ, mkBlk rtTab mY, mkBlk rtTab mX]).1.map
        Blk.level =
        [Level.baseline, Level.baseline, Level.baseline, Level.excess] ∧
      (passOnce 3
          (twoPassLoop rtTab 3 false
            [mkBlk rtTab mA, mkBlk rtTab mZ, mkBlk rtTab mY, mkBlk rtTab mX]).2.1
          (twoPassLoop rtTab 3 false
            [mkBlk rtTab mA, mkBlk rtTab mZ, mkBlk rtTab mY, mkBlk rtTab mX]).2.2
          (twoPassLoop rtTab 3 false
            [mkBlk rtTab mA, mkBlk rtTab mZ, mkBlk rtTab mY,
              mkBlk rtTab mX]).1).map Blk.level =
        [Level.baseline, Level.baseline, Level.baseline, Level.baseline] := by
  have hA : mkBlk rtTab mA = Blk.mk 10 (some (1 / 4)) mA Level.unset := by
    norm_num [mkBlk, listMean, propErr, sumSq, rtTab, mA, List.filterMap_cons]
  have hZ : mkBlk rtTab mZ = Blk.mk (93 / 10) (some (6 / 5)) mZ Level.unset := by
    norm_num [mkBlk, listMean, propErr, sumSq, rtTab, mZ, List.filterMap_cons]
  have hY : mkBlk rtTab mY = Blk.mk (46 / 5) (some (42 / 5)) mY Level.unset := by
    norm_num [mkBlk, listMean, propErr, sumSq, rtTab, mY, List.filterMap_cons]
  have hX : mkBlk rtTab mX = Blk.mk 8 (some (1 / 10)) mX Level.unset := by
    norm_num [mkBlk, listMean, propErr, sumSq, rtTab, mX, List.filterMap_cons]
  have h1 : baselineFn rtTab false
      [Blk.mk 10 (some (1 / 4)) mA Level.unset,
        Blk.mk (93 / 10) (some (6 / 5)) mZ Level.unset,
        Blk.mk (46 / 5) (some (42 / 5)) mY Level.unset,
        Blk.mk 8 (some (1 / 10)) mX Level.unset] =
      ((10, some (1 / 4)),
        [Blk.mk 10 (some (1 / 4)) mA Level.unset,
          Blk.mk (93 / 10) (some (6 / 5)) mZ Level.unset,
          Blk.mk (46 / 5) (some (42 / 5)) mY Level.unset,
          Blk.mk 8 (some (1 / 10)) mX Level.unset]) := by
    norm_num [baselineFn, baselineCore, fallbackSigma, argmaxIdx, mA]
  have h2 : passOnce 3 10 (some (1 / 4))
      [Blk.mk 10 (some (1 / 4)) mA Level.unset,
        Blk.mk (93 / 10) (some (6 / 5)) mZ Level.unset,
        Blk.mk (46 / 5) (some (42 / 5)) mY Level.unset,
        Blk.mk 8 (some (1 / 10)) mX Level.unset] =
      [Blk.mk 10 (some (1 / 4)) mA Level.baseline,
        Blk.mk (93 / 10) (some (6 / 5)) mZ Level.baseline,
        Blk.mk (46 / 5) (some (42 / 5)) mY Level.excess,
        Blk.mk 8 (some (1 / 10)) mX Level.excess] := by
    norm_num [passOnce, bayeBlockLevelStep]
  have h3 : recomputeStats rtTab
      [Blk.mk 10 (some (1 / 4)) mA Level.baseline,
        Blk.mk (93 / 10) (some (6 / 5)) mZ Level.baseline,
        Blk.mk (46 / 5) (some (42 / 5)) mY Level.excess,
        Blk.mk 8 (some (1 / 10)) mX Level.excess] =
      (293 / 30, some (13 / 30)) := by
    norm_num [recomputeStats, listMean, sumSq, rtTab, mA, mZ,
      List.filterMap_cons]
    exact fun h => absurd h (List.cons_ne_nil _ _)
  have h4 : passOnce 3 (293 / 30) (some (13 / 30))
      [Blk.mk 10 (some (1 / 4)) mA Level.baseline,
        Blk.mk (93 / 10) (some (6 / 5)) mZ Level.baseline,
        Blk.mk (46 / 5) (some (42 / 5)) mY Level.excess,
        Blk.mk 8 (some (1 / 10)) mX Level.excess] =
      [Blk.mk 10 (some (1 / 4)) mA Level.baseline,
        Blk.mk (93 / 10) (some (6 / 5)) mZ Level.baseline,
        Blk.mk (46 / 5) (some (42 / 5)) mY Level.baseline,
        Blk.mk 8 (some (1 / 10)) mX Level.excess] := by
    norm_num [passOnce, bayeBlockLevelStep]
  have h5 : recomputeStats rtTab
      [Blk.mk 10 (some (1 / 4)) mA Level.baseline,
        Blk.mk (93 / 10) (some (6 / 5)) mZ Level.baseline,
        Blk.mk (46 / 5) (some (42 / 5)) mY Level.baseline,
        Blk.mk 8 (some (1 / 10)) mX Level.excess] =
      (77 / 8, some (17 / 8)) := by
    norm_num [recomputeStats, listMean, sumSq, rtTab, mA, mZ, mY,
      List.filterMap_cons]
    exact fun h => absurd h (List.cons_ne_nil _ _)
  have h6 : passOnce 3 (77 / 8) (some (17 / 8))
      [Blk.mk 10 (some (1 / 4)) mA Level.baseline,
        Blk.mk (93 / 10) (some (6 / 5)) mZ Level.baseline,
        Blk.mk (46 / 5) (some (42 / 5)) mY Level.baseline,
        Blk.mk 8 (some (1 / 10)) mX Level.excess] =
      [Blk.mk 10 (some (1 / 4)) mA Level.baseline,
        Blk.mk (93 / 10) (some (6 / 5)) mZ Level.baseline,
        Blk.mk (46 / 5) (some (42 / 5)) mY Level.baseline,
        Blk.mk 8 (some (1 / 10)) mX Level.baseline] := by
    norm_num [passOnce, bayeBlockLevelStep]
  have htp : twoPassLoop rtTab 3 false
      [mkBlk rtTab mA, mkBlk rtTab mZ, mkBlk rtTab mY, mkBlk rtTab mX] =
      ([Blk.mk 10 (some (1 / 4)) mA Level.baseline,
          Blk.mk (93 / 10) (some (6 / 5)) mZ Level.baseline,
          Blk.mk (46 / 5) (some (42 / 5)) mY Level.baseline,
          Blk.mk 8 (some (1 / 10)) mX Level.excess],
        (77 / 8, some (17 / 8))) := by
    rw [twoPassLoop, hA, hZ, hY, hX, h1]
    dsimp only
    rw [h2, h3]
    dsimp only
    rw [h4, h5]
  refine ⟨?_, ?_⟩
  · rw [htp]
    simp
  · rw [htp]
    dsimp only
    rw [h6]
    simp

set_option maxHeartbeats 1000000 in
/-- Witness for `c8_second_pass_rerun` at a one-block band. -/
theorem c8_second_pass_rerun_witness :
    ((passOnce 3 (twoPassLoop rtTab 3 false [mkBlk rtTab mA]).2.1
        (twoPassLoop rtTab 3 false [mkBlk rtTab mA]).2.2
        (twoPassLoop rtTab 3 false [mkBlk rtTab mA]).1).getD 0 blkDefault).level =
      Level.baseline :=
  c8_second_pass_rerun rtTab 3 false [mkBlk rtTab mA] 0
    (by norm_num [twoPassLoop, baselineFn, baselineCore, fallbackSigma, passOnce,
      bayeBlockLevelStep, recomputeStats, mkBlk, listMean, propErr, sumSq,
      argmaxIdx, rtTab, mA, List.filterMap_cons, List.foldl_cons, List.foldl_nil,
      List.getD_cons_zero])
